import Mathlib

/-!
# Heart frame tables (heart_frames.h)

The header declares nine arrays of four 32-bit words each (LittleHeart and
Heart1 .. Heart8) and two tables of pointers to them (HeartStatic and
HeartAnim).  A word array is embedded as a list of naturals, a pointer table
as the list of the arrays it points to, in declaration order.
-/

namespace HeartFrames

/-! ## The data, as declared in the header -/

/-- The array LittleHeart. -/
def LittleHeart : List Nat := [0x20360000, 0x11010409, 0x100140, 0x0]

/-- The pointer table HeartStatic. -/
def HeartStatic : List (List Nat) := [LittleHeart]

/-- The array Heart1. -/
def Heart1 : List Nat := [0x108883b8, 0x20820210, 0x280220, 0x2]

/-- The array Heart2. -/
def Heart2 : List Nat := [0x1988c7fc, 0x60c60330, 0x6c0630, 0x7]

/-- The array Heart3. -/
def Heart3 : List Nat := [0x1988c7fc, 0x60c60330, 0x6c0630, 0x7]

/-- The array Heart4. -/
def Heart4 : List Nat := [0x1f88effe, 0xe0ee03f0, 0x80ee0e38, 0xf]

/-- The array Heart5. -/
def Heart5 : List Nat := [0x1f88ffff, 0xe0fe03f0, 0xc1ef1e3d, 0x1f]

/-- The array Heart6. -/
def Heart6 : List Nat := [0x1f88ffff, 0xe0fe03f0, 0xf7effe3f, 0x7f]

/-- The array Heart7. -/
def Heart7 : List Nat := [0x1f88ffff, 0xe0fe03f0, 0xffeffe3f, 0xff]

/-- The array Heart8. -/
def Heart8 : List Nat := [0x1f88ffff, 0xe0fe03f0, 0xffeffe3f, 0xff]

/-- The pointer table HeartAnim. -/
def HeartAnim : List (List Nat) :=
  [Heart1, Heart2, Heart3, Heart4, Heart5, Heart6, Heart7, Heart8]

/-! ## Reading conventions used to state the properties -/

/-- The two pointer tables of the header. -/
def tables : List (List (List Nat)) := [HeartStatic, HeartAnim]

/-- Every word array of the header, in declaration order. -/
def allFrames : List (List Nat) :=
  [LittleHeart, Heart1, Heart2, Heart3, Heart4, Heart5, Heart6, Heart7, Heart8]

/-- Word k of a frame (0 when k is past the end of the array). -/
def word (f : List Nat) (k : Nat) : Nat := f.getD k 0

/-- Bit n of a frame read as one bit string: bit 0 of word 0 comes first and
each word carries 32 bits. -/
def frameBit (f : List Nat) (n : Nat) : Bool := (word f (n / 32)).testBit (n % 32)

/-- Frame i of the table HeartAnim (the empty array when i is past the end). -/
def animFrame (i : Nat) : List Nat := HeartAnim.getD i []

/-! ## The lookup surface of the frame table -/

/-- The two error kinds of a lookup. -/
inductive LookupError where
  | UnknownAnimation
  | IndexOutOfRange
  deriving DecidableEq, Repr

/-- The closed set of registered animation names. -/
def registered : List String := ["static", "beating"]

/-- Modelled from the spec: the lookup get_animation, which the header does not
define.  The name static maps to the table HeartStatic, the name beating to the
table HeartAnim, and any other name fails with UnknownAnimation. -/
def get_animation (name : String) : Except LookupError (List (List Nat)) :=
  if name = "static" then .ok HeartStatic
  else if name = "beating" then .ok HeartAnim
  else .error .UnknownAnimation

/-- Modelled from the spec: the lookup frame_count, which the header does not
define.  It is the length of the sequence get_animation returns, with the same
error condition. -/
def frame_count (name : String) : Except LookupError Nat :=
  match get_animation name with
  | .ok frames => .ok frames.length
  | .error e => .error e

/-- Modelled from the spec: the lookup get_frame, which the header does not
define.  It returns the frame at the given position of the named animation,
fails with UnknownAnimation for a name that is not registered and with
IndexOutOfRange for an index outside the range from 0 up to the frame count. -/
def get_frame (name : String) (index : Int) : Except LookupError (List Nat) :=
  match get_animation name with
  | .error e => .error e
  | .ok frames =>
    if index < 0 then .error .IndexOutOfRange
    else
      match frames.get? index.toNat with
      | some f => .ok f
      | none => .error .IndexOutOfRange

/-! ## Shared lemmas -/

theorem mem_tables {t : List (List Nat)} (h : t ∈ tables) : t = HeartStatic ∨ t = HeartAnim := by
  simpa [tables] using h

theorem allFrames_eq : allFrames = HeartStatic ++ HeartAnim := rfl

theorem get_animation_cases (name : String) :
    (name ∈ registered ∧ ∃ frames, get_animation name = .ok frames) ∨
      (name ∉ registered ∧ get_animation name = .error .UnknownAnimation) := by
  by_cases h1 : name = "static"
  · exact Or.inl ⟨by simp [registered, h1], HeartStatic, by simp [get_animation, h1]⟩
  · by_cases h2 : name = "beating"
    · exact Or.inl ⟨by simp [registered, h2], HeartAnim, by simp [get_animation, h2]⟩
    · exact Or.inr ⟨by simp [registered, h1, h2], by simp [get_animation, h1, h2]⟩

theorem frame_count_of_ok {name : String} {frames : List (List Nat)}
    (h : get_animation name = .ok frames) : frame_count name = .ok frames.length := by
  simp [frame_count, h]

theorem frame_count_of_error {name : String} {e : LookupError}
    (h : get_animation name = .error e) : frame_count name = .error e := by
  simp [frame_count, h]

theorem get_frame_of_error {name : String} {e : LookupError} (i : Int)
    (h : get_animation name = .error e) : get_frame name i = .error e := by
  simp [get_frame, h]

theorem get_frame_in_range {name : String} {frames : List (List Nat)} {i : Int}
    (h : get_animation name = .ok frames) (h0 : 0 ≤ i) (h1 : i < frames.length) :
    ∃ f, get_frame name i = .ok f := by
  have hlt : i.toNat < frames.length := by omega
  refine ⟨frames.get ⟨i.toNat, hlt⟩, ?_⟩
  have hneg : ¬ i < 0 := by omega
  simp [get_frame, h, hneg, List.getElem?_eq_getElem hlt]

theorem get_frame_out_of_range {name : String} {frames : List (List Nat)} {i : Int}
    (h : get_animation name = .ok frames) (hr : ¬ (0 ≤ i ∧ i < frames.length)) :
    get_frame name i = .error .IndexOutOfRange := by
  by_cases hneg : i < 0
  · simp [get_frame, h, hneg]
  · have hge : frames.length ≤ i.toNat := by omega
    simp [get_frame, h, hneg, List.getElem?_eq_none hge]

theorem allFrames_length : ∀ f ∈ allFrames, f.length = 4 := by decide

theorem word_past_end {f : List Nat} {k : Nat} (h : f.length ≤ k) : word f k = 0 := by
  simp [word, List.getD_eq_getElem?_getD, List.getElem?_eq_none h]

/-- A frame whose word 3 is below 2^j has no bit set from position 96 + j on. -/
theorem frameBit_high {f : List Nat} {j n : Nat} (hlen : f.length = 4)
    (hw : word f 3 < 2 ^ j) (hn : 96 + j ≤ n) : frameBit f n = false := by
  unfold frameBit
  by_cases hk : 4 ≤ n / 32
  · rw [word_past_end (by omega)]
    exact Nat.zero_testBit _
  · have h3 : n / 32 = 3 := by omega
    rw [h3]
    apply Nat.testBit_lt_two_pow
    have hj : j ≤ n % 32 := by omega
    exact lt_of_lt_of_le hw (Nat.pow_le_pow_right (by decide) hj)

/-- Wordwise inclusion of lit bits gives inclusion of the lit bits of the frame. -/
theorem frameBit_mono {f g : List Nat}
    (h : ∀ k, word f k &&& word g k = word f k) (n : Nat)
    (hf : frameBit f n = true) : frameBit g n = true := by
  unfold frameBit at hf ⊢
  rw [← h (n / 32), Nat.testBit_and] at hf
  simp only [Bool.and_eq_true] at hf
  exact hf.2

theorem animFrame_mem (i : Nat) (hi : i < 8) : animFrame i ∈ allFrames := by
  interval_cases i <;> decide

theorem word_animFrame_past_end (i : Nat) (hi : i < 8) (k : Nat) (hk : 4 ≤ k) :
    word (animFrame i) k = 0 :=
  word_past_end (by rw [allFrames_length _ (animFrame_mem i hi)]; exact hk)

theorem animFrame_and_next (i : Nat) (hi : i < 7) (k : Nat) :
    word (animFrame i) k &&& word (animFrame (i + 1)) k = word (animFrame i) k := by
  by_cases hk : k < 4
  · interval_cases i <;> interval_cases k <;> rfl
  · rw [word_animFrame_past_end i (by omega) k (by omega),
      word_animFrame_past_end (i + 1) (by omega) k (by omega)]
    rfl

theorem animFrame_and_last (i : Nat) (hi : i < 8) (k : Nat) :
    word (animFrame i) k &&& word Heart8 k = word (animFrame i) k := by
  by_cases hk : k < 4
  · interval_cases i <;> interval_cases k <;> rfl
  · rw [word_animFrame_past_end i hi k (by omega)]
    exact Nat.zero_and _

/-! ## The claims -/

/-- C1: the table HeartStatic is a sequence of exactly one frame, and the words
of that frame are 0x20360000, 0x11010409, 0x00100140, 0x00000000 in that
order. -/
theorem C1_static_single_frame :
    HeartStatic.length = 1 ∧
      HeartStatic = [[0x20360000, 0x11010409, 0x00100140, 0x00000000]] := by
  constructor <;> rfl

/-- C2: the table HeartAnim is a sequence of exactly 8 frames, its frame at
index 0 is 0x108883b8, 0x20820210, 0x00280220, 0x00000002 and its frame at
index 7 is 0x1f88ffff, 0xe0fe03f0, 0xffeffe3f, 0x000000ff. -/
theorem C2_beating_eight_frames :
    HeartAnim.length = 8 ∧
      HeartAnim.get? 0 = some [0x108883b8, 0x20820210, 0x00280220, 0x00000002] ∧
      HeartAnim.get? 7 = some [0x1f88ffff, 0xe0fe03f0, 0xffeffe3f, 0x000000ff] := by
  refine ⟨rfl, rfl, rfl⟩

/-- C3: in the table HeartAnim the frames at indices 1 and 2 (Heart2 and
Heart3) are equal word for word. -/
theorem C3_second_third_identical :
    HeartAnim.get? 1 = some Heart2 ∧ HeartAnim.get? 2 = some Heart3 ∧
      HeartAnim.get? 1 = HeartAnim.get? 2 ∧
      ∀ k : Nat, word Heart2 k = word Heart3 k := by
  refine ⟨rfl, rfl, rfl, fun k => rfl⟩

/-- C4: for each of the two tables and every valid index i of that table, the
frame at index i has exactly 4 words and each of them is below 2^32. -/
theorem C4_frames_four_words (t : List (List Nat)) (ht : t ∈ tables)
    (i : Nat) (hi : i < t.length) :
    (t.get ⟨i, hi⟩).length = 4 ∧ ∀ w ∈ t.get ⟨i, hi⟩, w < 2 ^ 32 := by
  have hmem : t.get ⟨i, hi⟩ ∈ allFrames := by
    have h1 : t.get ⟨i, hi⟩ ∈ t := List.get_mem t i hi
    rw [allFrames_eq]
    rcases mem_tables ht with rfl | rfl
    · exact List.mem_append_left _ h1
    · exact List.mem_append_right _ h1
  have hall : ∀ f ∈ allFrames, f.length = 4 ∧ ∀ w ∈ f, w < 2 ^ 32 := by decide
  exact hall _ hmem

theorem C4_frames_four_words_witness :
    HeartAnim ∈ tables ∧ (∃ hi : 3 < HeartAnim.length,
      (HeartAnim.get ⟨3, hi⟩).length = 4 ∧ ∀ w ∈ HeartAnim.get ⟨3, hi⟩, w < 2 ^ 32) :=
  ⟨by decide, by decide, C4_frames_four_words HeartAnim (by decide) 3 (by decide)⟩

/-- C5: each registered animation table (static is HeartStatic, beating is
HeartAnim) has a frame count of at least 1, so the frame sequence of every
animation is non-empty. -/
theorem C5_frame_count_pos :
    1 ≤ HeartStatic.length ∧ 1 ≤ HeartAnim.length ∧ HeartStatic ≠ [] ∧ HeartAnim ≠ [] ∧
      tables.all (fun t => decide (1 ≤ t.length)) = true := by
  refine ⟨by decide, by decide, by decide, by decide, by decide⟩

/-- C6: get_frame at index 8 of the beating animation fails with
IndexOutOfRange, looking up the unregistered name nonexistent fails with
UnknownAnimation (no default frame or sequence is returned), and in general
get_frame succeeds exactly when the name is registered and the index lies in
the range from 0 up to the frame count of that name; a failure reports
UnknownAnimation for an unregistered name and IndexOutOfRange otherwise. -/
theorem C6_lookup_errors :
    get_frame "beating" 8 = .error .IndexOutOfRange ∧
      get_animation "nonexistent" = .error .UnknownAnimation ∧
      frame_count "nonexistent" = .error .UnknownAnimation ∧
      (∀ i : Int, get_frame "nonexistent" i = .error .UnknownAnimation) ∧
      (∀ (name : String) (i : Int),
        (∃ f, get_frame name i = .ok f) ↔
          (name ∈ registered ∧ ∃ n : Nat, frame_count name = .ok n ∧ 0 ≤ i ∧ i < n)) ∧
      (∀ (name : String) (i : Int), name ∉ registered →
        get_frame name i = .error .UnknownAnimation) ∧
      (∀ (name : String) (i : Int) (n : Nat), frame_count name = .ok n →
        ¬ (0 ≤ i ∧ i < n) → get_frame name i = .error .IndexOutOfRange) := by
  refine ⟨rfl, rfl, rfl, fun i => rfl, ?_, ?_, ?_⟩
  · intro name i
    rcases get_animation_cases name with ⟨hreg, frames, hok⟩ | ⟨hreg, herr⟩
    · constructor
      · intro hf
        refine ⟨hreg, frames.length, frame_count_of_ok hok, ?_⟩
        by_contra hr
        rcases hf with ⟨f, hf⟩
        rw [get_frame_out_of_range hok hr] at hf
        cases hf
      · rintro ⟨-, n, hn, h0, h1⟩
        rw [frame_count_of_ok hok] at hn
        cases hn
        exact get_frame_in_range hok h0 h1
    · constructor
      · rintro ⟨f, hf⟩
        rw [get_frame_of_error i herr] at hf
        cases hf
      · rintro ⟨h, -⟩
        exact absurd h hreg
  · intro name i hreg
    rcases get_animation_cases name with ⟨hreg2, -⟩ | ⟨-, herr⟩
    · exact absurd hreg2 hreg
    · exact get_frame_of_error i herr
  · intro name i n hn hr
    rcases get_animation_cases name with ⟨-, frames, hok⟩ | ⟨-, herr⟩
    · rw [frame_count_of_ok hok] at hn
      cases hn
      exact get_frame_out_of_range hok hr
    · rw [frame_count_of_error herr] at hn
      cases hn

/-- C7: for every frame of the header, read as 128 bits with bit 0 of word 0
first, every bit beyond the 121 pixel bits is zero: word 3 is below 2^25, so
bits 25..31 of word 3 (bits 121..127 of the frame) are all 0. -/
theorem C7_padding_bits_zero (f : List Nat) (hf : f ∈ allFrames) :
    word f 3 < 2 ^ 25 ∧
      (∀ b : Nat, 25 ≤ b → b ≤ 31 → (word f 3).testBit b = false) ∧
      (∀ n : Nat, 121 ≤ n → frameBit f n = false) := by
  have hw : word f 3 < 2 ^ 25 := by
    have hall : ∀ g ∈ allFrames, word g 3 < 2 ^ 25 := by decide
    exact hall f hf
  refine ⟨hw, ?_, ?_⟩
  · intro b hb _
    apply Nat.testBit_lt_two_pow
    exact lt_of_lt_of_le hw (Nat.pow_le_pow_right (by decide) hb)
  · intro n hn
    exact frameBit_high (allFrames_length f hf) hw (by omega)

theorem C7_padding_bits_zero_witness :
    Heart8 ∈ allFrames ∧ word Heart8 3 < 2 ^ 25 ∧
      (∀ b : Nat, 25 ≤ b → b ≤ 31 → (word Heart8 3).testBit b = false) ∧
      (∀ n : Nat, 121 ≤ n → frameBit Heart8 n = false) :=
  ⟨by decide, C7_padding_bits_zero Heart8 (by decide)⟩

/-- C8: the beating animation only ever turns pixels on: for consecutive frames
HeartAnim[i], HeartAnim[i+1] with i < 7 and every word position k in 0..3, the
bitwise AND of the two words at k equals the word of frame i, so each lit bit
of a frame is lit in the next frame and in the last frame. -/
theorem C8_frames_monotone (i : Nat) (hi : i < 7) :
    HeartAnim.get? i = some (animFrame i) ∧
      HeartAnim.get? (i + 1) = some (animFrame (i + 1)) ∧
      (∀ k : Nat, k < 4 →
        word (animFrame i) k &&& word (animFrame (i + 1)) k = word (animFrame i) k) ∧
      (∀ n : Nat, frameBit (animFrame i) n = true → frameBit (animFrame (i + 1)) n = true) ∧
      (∀ n : Nat, frameBit (animFrame i) n = true → frameBit Heart8 n = true) ∧
      HeartAnim.getLast? = some Heart8 := by
  refine ⟨?_, ?_, fun k _ => animFrame_and_next i hi k,
    frameBit_mono (animFrame_and_next i hi), frameBit_mono (animFrame_and_last i (by omega)), rfl⟩
  · interval_cases i <;> rfl
  · interval_cases i <;> rfl

theorem C8_frames_monotone_witness :
    3 < 7 ∧ word (animFrame 3) 2 &&& word (animFrame 4) 2 = word (animFrame 3) 2 ∧
      word (animFrame 3) 2 = 0x80ee0e38 ∧ word (animFrame 4) 2 = 0xc1ef1e3d :=
  ⟨by decide, (C8_frames_monotone 3 (by decide)).2.2.1 2 (by decide), rfl, rfl⟩

/-- C9: every frame of the header uses only the low 104 bits of its 128: word 3
of every frame is below 256 (bits 8..31 of word 3 are zero), and the last
animation frame has word 3 equal to 0xff. -/
theorem C9_low_104_bits (f : List Nat) (hf : f ∈ allFrames) :
    word f 3 < 256 ∧
      (∀ b : Nat, 8 ≤ b → b ≤ 31 → (word f 3).testBit b = false) ∧
      (∀ n : Nat, 104 ≤ n → frameBit f n = false) ∧
      HeartAnim.getLast? = some Heart8 ∧ word Heart8 3 = 0xff := by
  have hw : word f 3 < 2 ^ 8 := by
    have hall : ∀ g ∈ allFrames, word g 3 < 2 ^ 8 := by decide
    exact hall f hf
  refine ⟨hw, ?_, ?_, rfl, rfl⟩
  · intro b hb _
    apply Nat.testBit_lt_two_pow
    exact lt_of_lt_of_le hw (Nat.pow_le_pow_right (by decide) hb)
  · intro n hn
    exact frameBit_high (allFrames_length f hf) hw (by omega)

theorem C9_low_104_bits_witness :
    Heart6 ∈ allFrames ∧ word Heart6 3 = 0x7f ∧ word Heart6 3 < 256 :=
  ⟨by decide, rfl, (C9_low_104_bits Heart6 (by decide)).1⟩

/-- C10: in the table HeartAnim the frames at indices 6 and 7 (Heart7 and
Heart8) are equal word for word, and apart from the duplicate pairs (1,2) and
(6,7) all frames are pairwise different, so the 8 frames contain exactly 6
distinct frames. -/
theorem C10_six_distinct_frames :
    HeartAnim.get? 6 = some Heart7 ∧ HeartAnim.get? 7 = some Heart8 ∧
      Heart7 = Heart8 ∧ HeartAnim.get? 6 = HeartAnim.get? 7 ∧
      (∀ i j : Fin 8, i < j →
        (HeartAnim.get? i.val = HeartAnim.get? j.val ↔
          (i.val = 1 ∧ j.val = 2) ∨ (i.val = 6 ∧ j.val = 7))) ∧
      HeartAnim.dedup.length = 6 ∧ HeartAnim.toFinset.card = 6 := by
  refine ⟨rfl, rfl, rfl, rfl, by decide, by decide, by decide⟩

end HeartFrames
